import Mathlib

/-!
Verification of the clonal CNV profile store (`sccnvsim/utils/xcnv.py`).

The file embeds the data model and operations of `xcnv.py` as executable
Lean definitions and proves the specified properties about them.

`xcnv.py` builds on `Region` / `RegionSet` from `sccnvsim.utils.grange`,
a module whose source is not available here; those two classes are
modelled from the specification (sections 3 and 4.1 of the design spec)
and marked as such in their doc comments.  Everything else is translated
directly from `xcnv.py`.
-/

namespace XCNV

/-- The region record stored in a `RegionSet`.  Mirrors `CNVRegCN`
(`xcnv.py`): a genomic region (`chrom`, 1-based inclusive `start`,
exclusive `end`, `name`) plus allele-specific copy numbers. -/
structure CNVRegCN where
  chrom : String
  start : Int
  «end» : Int
  name : String
  cn_ale0 : Int
  cn_ale1 : Int
  deriving DecidableEq, Repr

/-- Modelled from the spec: `grange.RegionSet` is not under `src/`; per
spec §4.1 an `IntervalRegionSet` owns an unordered collection of regions.
We represent it as the list of members in insertion order. -/
structure RegionSet where
  regions : List CNVRegCN
  deriving DecidableEq, Repr

/-- Duplicate key of spec §3: two members collide when their full tuple
`(chrom, start, end, name)` coincides. -/
def dupKey (a b : CNVRegCN) : Bool :=
  a.chrom == b.chrom && a.start == b.start && a.«end» == b.«end» && a.name == b.name

/-- Modelled from the spec: `RegionSet.add` (used by
`CNVProfile.add_cnv`, `xcnv.py` line 69) per spec §4.1 `insert`:
`Invalid` (-1) when `start < 1` or `start ≥ end`, with no mutation;
`DuplicateRejected` (1) when an existing member has the same
`(chrom, start, end, name)`, with no mutation; otherwise `Inserted` (0)
and the region joins the collection. -/
def RegionSet.add (rs : RegionSet) (reg : CNVRegCN) : Int × RegionSet :=
  if 1 ≤ reg.start ∧ reg.start < reg.«end» then
    if rs.regions.any (fun r => dupKey r reg) then
      (1, rs)
    else
      (0, ⟨rs.regions ++ [reg]⟩)
  else
    (-1, rs)

/-- Modelled from the spec: `RegionSet.fetch` per spec §4.1 `overlaps`:
every member on chromosome `chrom` whose half-open interval meets
`[start, end)`, i.e. `member.start < end` and `start < member.end`. -/
def RegionSet.fetch (rs : RegionSet) (chrom : String) (start «end» : Int) :
    List CNVRegCN :=
  rs.regions.filter
    (fun r => r.chrom == chrom && decide (r.start < «end») && decide (start < r.«end»))

/-- Modelled from the spec: `RegionSet.query` per spec §4.1 `byName`:
all members whose `name` equals the query exactly. -/
def RegionSet.query (rs : RegionSet) (name : String) : List CNVRegCN :=
  rs.regions.filter (fun r => r.name == name)

/-- Ordering of spec §4.1 `allSorted`: by `(chrom, start)` ascending,
chromosomes compared lexically on the raw string. -/
def regLE (a b : CNVRegCN) : Prop :=
  a.chrom < b.chrom ∨ (a.chrom = b.chrom ∧ a.start ≤ b.start)

instance : DecidableRel regLE := fun a b =>
  inferInstanceAs (Decidable (a.chrom < b.chrom ∨ (a.chrom = b.chrom ∧ a.start ≤ b.start)))

instance : IsTotal CNVRegCN regLE where
  total a b := by
    rcases lt_trichotomy a.chrom b.chrom with h | h | h
    · exact Or.inl (Or.inl h)
    · rcases le_total a.start b.start with h' | h'
      · exact Or.inl (Or.inr ⟨h, h'⟩)
      · exact Or.inr (Or.inr ⟨h.symm, h'⟩)
    · exact Or.inr (Or.inl h)

instance : IsTrans CNVRegCN regLE where
  trans a b c hab hbc := by
    rcases hab with h1 | ⟨e1, s1⟩
    · rcases hbc with h2 | ⟨e2, _⟩
      · exact Or.inl (lt_trans h1 h2)
      · exact Or.inl (e2 ▸ h1)
    · rcases hbc with h2 | ⟨e2, s2⟩
      · exact Or.inl (e1 ▸ h2)
      · exact Or.inr ⟨e1.trans e2, le_trans s1 s2⟩

/-- Modelled from the spec: `RegionSet.get_regions(sort = True)` (used by
`CNVProfile.get_all`, `xcnv.py` line 108) per spec §4.1 `allSorted`:
every member ordered by `(chrom, start)` ascending. -/
def RegionSet.get_regions (rs : RegionSet) : List CNVRegCN :=
  List.insertionSort regLE rs.regions

/-- `CNVProfile` (`xcnv.py` lines 36-150): the CNV profile of one clone,
wrapping one `RegionSet`. -/
structure CNVProfile where
  rs : RegionSet
  deriving DecidableEq, Repr

/-- `CNVProfile()` constructor: an empty region set. -/
def CNVProfile.empty : CNVProfile := ⟨⟨[]⟩⟩

/-- `CNVProfile.add_cnv` (`xcnv.py` lines 44-70): build a `CNVRegCN` and
forward to `RegionSet.add`, returning its code. -/
def CNVProfile.add_cnv (cp : CNVProfile) (chrom : String) (start «end» : Int)
    (name : String) (cn_ale0 cn_ale1 : Int) : Int × CNVProfile :=
  let reg : CNVRegCN := ⟨chrom, start, «end», name, cn_ale0, cn_ale1⟩
  let p := cp.rs.add reg
  (p.1, ⟨p.2⟩)

/-- `CNVProfile.fetch` (`xcnv.py` lines 72-103): overlap query, returning
the hit count and the list of `(cn_ale0, cn_ale1, name)` tuples. -/
def CNVProfile.fetch (cp : CNVProfile) (chrom : String) (start «end» : Int) :
    Int × List (Int × Int × String) :=
  let hits := cp.rs.fetch chrom start «end»
  let res := hits.map (fun reg => (reg.cn_ale0, reg.cn_ale1, reg.name))
  ((res.length : Int), res)

/-- One row of `CNVProfile.get_all` (`xcnv.py` lines 105-124).  The code
returns a dict of equal-length columns; we represent it row-wise. -/
structure ProfRec where
  chrom : String
  start : Int
  «end» : Int
  name : String
  cn_ale0 : Int
  cn_ale1 : Int
  deriving DecidableEq, Repr

/-- `CNVProfile.get_all` (`xcnv.py` lines 105-124): dump the sorted
regions, converting the stored exclusive `end` back to inclusive
(`reg.end - 1`). -/
def CNVProfile.get_all (cp : CNVProfile) : List ProfRec :=
  cp.rs.get_regions.map
    (fun reg => ⟨reg.chrom, reg.start, reg.«end» - 1, reg.name, reg.cn_ale0, reg.cn_ale1⟩)

/-- `CNVProfile.query` (`xcnv.py` lines 126-150): name query, returning
the hit count and the list of `(cn_ale0, cn_ale1, name)` tuples. -/
def CNVProfile.query (cp : CNVProfile) (name : String) :
    Int × List (Int × Int × String) :=
  let hits := cp.rs.query name
  let res := hits.map (fun reg => (reg.cn_ale0, reg.cn_ale1, reg.name))
  ((res.length : Int), res)

/-- `CloneCNVProfile` (`xcnv.py` lines 153-293): a dict from clone ID to
that clone's `CNVProfile`.  Python dicts preserve insertion order and
have unique keys; we represent `self.dat` as an association list in
insertion order. -/
structure CloneCNVProfile where
  dat : List (String × CNVProfile)
  deriving DecidableEq, Repr

/-- `CloneCNVProfile()` constructor: the empty dict. -/
def CloneCNVProfile.empty : CloneCNVProfile := ⟨[]⟩

/-- Dict membership / indexing: `self.dat[clone_id]` when present. -/
def lookupClone : List (String × CNVProfile) → String → Option CNVProfile
  | [], _ => none
  | (k, v) :: rest, cid => if k = cid then some v else lookupClone rest cid

/-- Dict assignment `self.dat[clone_id] = cp`: replace the value at an
existing key in place, else append a new entry at the end. -/
def updateClone : List (String × CNVProfile) → String → CNVProfile →
    List (String × CNVProfile)
  | [], cid, cp => [(cid, cp)]
  | (k, v) :: rest, cid, cp =>
      if k = cid then (k, cp) :: rest else (k, v) :: updateClone rest cid cp

/-- `CloneCNVProfile.add_cnv` (`xcnv.py` lines 162-192): lazily create the
clone's profile if absent (line 188-189, before any validation), then
forward to `CNVProfile.add_cnv` and return its code. -/
def CloneCNVProfile.add_cnv (s : CloneCNVProfile) (chrom : String)
    (start «end» : Int) (name : String) (cn_ale0 cn_ale1 : Int)
    (clone_id : String) : Int × CloneCNVProfile :=
  let cp :=
    match lookupClone s.dat clone_id with
    | some cp => cp
    | none => CNVProfile.empty
  let p := cp.add_cnv chrom start «end» name cn_ale0 cn_ale1
  (p.1, ⟨updateClone s.dat clone_id p.2⟩)

/-- `CloneCNVProfile.fetch` (`xcnv.py` lines 194-230): forward to the
clone's profile when the clone exists, else `(0, [])`. -/
def CloneCNVProfile.fetch (s : CloneCNVProfile) (chrom : String)
    (start «end» : Int) (clone_id : String) : Int × List (Int × Int × String) :=
  match lookupClone s.dat clone_id with
  | some cp => cp.fetch chrom start «end»
  | none => (0, [])

/-- One row of `CloneCNVProfile.get_all` (`xcnv.py` lines 232-254). -/
structure ExportRec where
  clone : String
  chrom : String
  start : Int
  «end» : Int
  name : String
  cn_ale0 : Int
  cn_ale1 : Int
  deriving DecidableEq, Repr

/-- `CloneCNVProfile.get_all` (`xcnv.py` lines 232-254): iterate clone IDs
in sorted order (`sorted(self.dat.keys())`), appending each clone's
`CNVProfile.get_all` rows tagged with the clone ID. -/
def CloneCNVProfile.get_all (s : CloneCNVProfile) : List ExportRec :=
  (List.insertionSort (fun a b : String => a ≤ b) (s.dat.map Prod.fst)).flatMap
    (fun cid =>
      match lookupClone s.dat cid with
      | some cp =>
          cp.get_all.map
            (fun r => ⟨cid, r.chrom, r.start, r.«end», r.name, r.cn_ale0, r.cn_ale1⟩)
      | none => [])

/-- `CloneCNVProfile.get_clones` (`xcnv.py` lines 256-259):
`sorted(self.dat.keys())`. -/
def CloneCNVProfile.get_clones (s : CloneCNVProfile) : List String :=
  List.insertionSort (fun a b : String => a ≤ b) (s.dat.map Prod.fst)

/-- `CloneCNVProfile.query` (`xcnv.py` lines 261-293): forward to the
clone's profile when the clone exists, else `(0, [])`. -/
def CloneCNVProfile.query (s : CloneCNVProfile) (name clone_id : String) :
    Int × List (Int × Int × String) :=
  match lookupClone s.dat clone_id with
  | some cp => cp.query name
  | none => (0, [])

/-- One input record of `load_cnv_profile` (`xcnv.py` lines 296-329):
`chrom, start, end, region, cn_ale0, cn_ale1, clone` with 1-based
inclusive `start` and `end`. -/
structure InputRec where
  chrom : String
  start : Int
  «end» : Int
  region : String
  cn_ale0 : Int
  cn_ale1 : Int
  clone : String
  deriving DecidableEq, Repr

/-- `load_cnv_profile` (`xcnv.py` lines 296-329), success path: insert
every record into a fresh store, converting the inclusive `end` to the
exclusive convention by adding 1 (line 323).  File parsing and the
failure path are external plumbing outside the core. -/
def load_cnv_profile (df : List InputRec) : CloneCNVProfile :=
  df.foldl
    (fun s rec =>
      (s.add_cnv rec.chrom rec.start (rec.«end» + 1) rec.region
        rec.cn_ale0 rec.cn_ale1 rec.clone).2)
    CloneCNVProfile.empty

/-- The region list held for a clone: the clone's stored regions when
present, `[]` otherwise.  This is the full observable content of one
clone (fetch, query and export are functions of it). -/
def cloneRegions (s : CloneCNVProfile) (c : String) : List CNVRegCN :=
  match lookupClone s.dat c with
  | some cp => cp.rs.regions
  | none => []

/-- One full argument tuple of a `CloneCNVProfile.add_cnv` call. -/
structure AddReq where
  chrom : String
  start : Int
  «end» : Int
  name : String
  cn_ale0 : Int
  cn_ale1 : Int
  clone_id : String
  deriving DecidableEq, Repr

/-- Apply a sequence of `add_cnv` calls to a store, left to right. -/
def applyReqs (s : CloneCNVProfile) : List AddReq → CloneCNVProfile
  | [] => s
  | r :: rest =>
      applyReqs
        (s.add_cnv r.chrom r.start r.«end» r.name r.cn_ale0 r.cn_ale1 r.clone_id).2
        rest

/-- The export order relation: clone-major ascending, then by
`(chrom, start)` with chromosomes compared lexically. -/
def expLE (a b : ExportRec) : Prop :=
  a.clone < b.clone ∨
    (a.clone = b.clone ∧
      (a.chrom < b.chrom ∨ (a.chrom = b.chrom ∧ a.start ≤ b.start)))

/-- A sample store: clone `cloneB` populated before clone `cloneA`,
regions inserted out of genomic order. -/
def sampleStore : CloneCNVProfile :=
  (CloneCNVProfile.add_cnv (CloneCNVProfile.add_cnv
      (CloneCNVProfile.add_cnv CloneCNVProfile.empty
        "chr2" 10 20 "R3" 1 1 "cloneB").2
      "chr1" 50 60 "R2" 3 1 "cloneB").2
    "chr1" 5 15 "R1" 2 1 "cloneA").2

/-! ### Helper lemmas about the dict model -/

theorem lookupClone_eq_none_iff (dat : List (String × CNVProfile)) (cid : String) :
    lookupClone dat cid = none ↔ cid ∉ dat.map Prod.fst := by
  induction dat with
  | nil => simp [lookupClone]
  | cons p rest ih =>
      obtain ⟨k, v⟩ := p
      by_cases hk : k = cid
      · subst hk
        simp [lookupClone]
      · have hck : ¬ cid = k := fun h => hk h.symm
        simp [lookupClone, hk, ih, hck]

theorem lookup_updateClone_self (dat : List (String × CNVProfile))
    (cid : String) (cp : CNVProfile) :
    lookupClone (updateClone dat cid cp) cid = some cp := by
  induction dat with
  | nil => simp [updateClone, lookupClone]
  | cons p rest ih =>
      obtain ⟨k, v⟩ := p
      by_cases hk : k = cid
      · simp [updateClone, lookupClone, hk]
      · simp [updateClone, lookupClone, hk, ih]

theorem lookup_updateClone_ne (dat : List (String × CNVProfile))
    (cid c : String) (cp : CNVProfile) (h : c ≠ cid) :
    lookupClone (updateClone dat cid cp) c = lookupClone dat c := by
  induction dat with
  | nil =>
      have hcc : ¬ cid = c := fun hc => h hc.symm
      simp [updateClone, lookupClone, hcc]
  | cons p rest ih =>
      obtain ⟨k, v⟩ := p
      by_cases hk : k = cid
      · subst hk
        have hkc : ¬ k = c := fun hc => h hc.symm
        simp [updateClone, lookupClone, hkc]
      · by_cases hc : k = c
        · simp [updateClone, lookupClone, hk, hc, h]
        · simp [updateClone, lookupClone, hk, hc, ih]

theorem updateClone_map_fst (dat : List (String × CNVProfile))
    (cid : String) (cp : CNVProfile) :
    (updateClone dat cid cp).map Prod.fst =
      if cid ∈ dat.map Prod.fst then dat.map Prod.fst
      else dat.map Prod.fst ++ [cid] := by
  induction dat with
  | nil => simp [updateClone]
  | cons p rest ih =>
      obtain ⟨k, v⟩ := p
      by_cases hk : k = cid
      · subst hk
        simp [updateClone]
      · have hck : ¬ cid = k := fun h => hk h.symm
        by_cases hmem : cid ∈ rest.map Prod.fst
        · simp [updateClone, hk, ih, hmem, hck]
        · simp [updateClone, hk, ih, hmem, hck]

theorem RegionSet.add_snd_of_ne_zero (rs : RegionSet) (reg : CNVRegCN)
    (h : (rs.add reg).1 ≠ 0) : (rs.add reg).2 = rs := by
  by_cases h1 : 1 ≤ reg.start ∧ reg.start < reg.«end»
  · by_cases h2 : rs.regions.any (fun r => dupKey r reg) = true
    · simp [RegionSet.add, h1, h2]
    · simp [RegionSet.add, h1, h2] at h
  · simp [RegionSet.add, h1]

/-! ### Claim theorems -/

/-- Claim C6: Geometry rejection.  An insert whose coordinates violate
`start < end` or `1 ≤ start` returns the `Invalid` code `-1` and leaves
the profile (hence its region set) unchanged. -/
theorem add_cnv_invalid_geometry (cp : CNVProfile) (chrom : String)
    (start «end» : Int) (name : String) (cn_ale0 cn_ale1 : Int)
    (h : ¬ (1 ≤ start ∧ start < «end»)) :
    cp.add_cnv chrom start «end» name cn_ale0 cn_ale1 = (-1, cp) := by
  simp [CNVProfile.add_cnv, RegionSet.add, h]

/-- Claim C6 witness: a zero-length region (`start = end = 100`) and a region
with `start = 0` are both rejected without growing the set. -/
theorem add_cnv_invalid_geometry_witness :
    (¬ (1 ≤ (100 : Int) ∧ (100 : Int) < 100) ∧
      CNVProfile.add_cnv CNVProfile.empty "chr1" 100 100 "reg1" 2 1
        = (-1, CNVProfile.empty)) ∧
    (¬ (1 ≤ (0 : Int) ∧ (0 : Int) < 200) ∧
      CNVProfile.add_cnv CNVProfile.empty "chr1" 0 200 "reg1" 2 1
        = (-1, CNVProfile.empty)) :=
  ⟨⟨by decide, add_cnv_invalid_geometry _ _ _ _ _ _ _ (by decide)⟩,
   ⟨by decide, add_cnv_invalid_geometry _ _ _ _ _ _ _ (by decide)⟩⟩

/-- Claim C5: Idempotent insertion.  Inserting a region whose
`(chrom, start, end, name)` equals that of an existing member — even
with different copy numbers — returns the `DuplicateRejected` code `1`
and leaves the profile (hence the set's size and contents) unchanged. -/
theorem add_cnv_duplicate (cp : CNVProfile) (chrom : String)
    (start «end» : Int) (name : String) (cn_ale0 cn_ale1 : Int)
    (m : CNVRegCN) (hm : m ∈ cp.rs.regions)
    (hc : m.chrom = chrom) (hs : m.start = start)
    (he : m.«end» = «end») (hn : m.name = name)
    (hv1 : 1 ≤ m.start) (hv2 : m.start < m.«end») :
    cp.add_cnv chrom start «end» name cn_ale0 cn_ale1 = (1, cp) := by
  have hvalid : 1 ≤ start ∧ start < «end» := by
    constructor
    · rw [← hs]; exact hv1
    · rw [← hs, ← he]; exact hv2
  have hany :
      cp.rs.regions.any
        (fun r => dupKey r ⟨chrom, start, «end», name, cn_ale0, cn_ale1⟩) = true := by
    refine List.any_eq_true.mpr ⟨m, hm, ?_⟩
    simp [dupKey, hc, hs, he, hn]
  simp [CNVProfile.add_cnv, RegionSet.add, hvalid, hany]

/-- Claim C5 witness: reinserting `chr1:[100,201) name R1` with different copy
numbers `(5, 7)` over a set already holding it with `(2, 1)` yields code
`1` and the set is unchanged. -/
theorem add_cnv_duplicate_witness :
    CNVProfile.add_cnv ⟨⟨[⟨"chr1", 100, 201, "R1", 2, 1⟩]⟩⟩ "chr1" 100 201 "R1" 5 7
      = (1, ⟨⟨[⟨"chr1", 100, 201, "R1", 2, 1⟩]⟩⟩) :=
  add_cnv_duplicate _ _ _ _ _ _ _ ⟨"chr1", 100, 201, "R1", 2, 1⟩
    (by simp) rfl rfl rfl rfl (by decide) (by decide)

/-- Claim C4: Unknown-clone queries are empty, not errors.  For a clone ID
absent from the store, both `fetch` and `query` return `(0, [])`, for
all other arguments. -/
theorem fetch_query_unknown_clone (s : CloneCNVProfile) (clone_id : String)
    (h : clone_id ∉ s.dat.map Prod.fst)
    (chrom : String) (start «end» : Int) (name : String) :
    s.fetch chrom start «end» clone_id = (0, []) ∧
      s.query name clone_id = (0, []) := by
  have hl : lookupClone s.dat clone_id = none :=
    (lookupClone_eq_none_iff s.dat clone_id).mpr h
  constructor
  · simp [CloneCNVProfile.fetch, hl]
  · simp [CloneCNVProfile.query, hl]

/-- Claim C4 witness: querying clone `cloneZ` of a store holding only
`cloneA` returns `(0, [])` from both `fetch` and `query`. -/
theorem fetch_query_unknown_clone_witness :
    "cloneZ" ∉ (CloneCNVProfile.add_cnv CloneCNVProfile.empty
        "chr1" 100 201 "R1" 2 1 "cloneA").2.dat.map Prod.fst ∧
    ((CloneCNVProfile.add_cnv CloneCNVProfile.empty
        "chr1" 100 201 "R1" 2 1 "cloneA").2.fetch "chr1" 1 500 "cloneZ" = (0, []) ∧
      (CloneCNVProfile.add_cnv CloneCNVProfile.empty
        "chr1" 100 201 "R1" 2 1 "cloneA").2.query "R1" "cloneZ" = (0, [])) :=
  ⟨by decide, fetch_query_unknown_clone _ _ (by decide) _ _ _ _⟩

/-- Claim C10: Count-list consistency.  All four query entry points return a
pair whose first component is exactly the length of the second, and in
particular the `-1` error count mentioned in the docstrings is never
produced. -/
theorem query_count_eq_length (cp : CNVProfile) (s : CloneCNVProfile)
    (chrom : String) (start «end» : Int) (name clone_id : String) :
    ((cp.fetch chrom start «end»).1 = ((cp.fetch chrom start «end»).2.length : Int) ∧
      (cp.fetch chrom start «end»).1 ≠ -1) ∧
    ((cp.query name).1 = ((cp.query name).2.length : Int) ∧
      (cp.query name).1 ≠ -1) ∧
    ((s.fetch chrom start «end» clone_id).1
        = ((s.fetch chrom start «end» clone_id).2.length : Int) ∧
      (s.fetch chrom start «end» clone_id).1 ≠ -1) ∧
    ((s.query name clone_id).1 = ((s.query name clone_id).2.length : Int) ∧
      (s.query name clone_id).1 ≠ -1) := by
  have hfetch : ∀ cp' : CNVProfile,
      (cp'.fetch chrom start «end»).1
          = ((cp'.fetch chrom start «end»).2.length : Int) ∧
        (cp'.fetch chrom start «end»).1 ≠ -1 := by
    intro cp'
    refine ⟨rfl, ?_⟩
    have h0 : (cp'.fetch chrom start «end»).1
        = (((cp'.fetch chrom start «end»).2.length : Int)) := rfl
    rw [h0]
    omega
  have hquery : ∀ cp' : CNVProfile,
      (cp'.query name).1 = ((cp'.query name).2.length : Int) ∧
        (cp'.query name).1 ≠ -1 := by
    intro cp'
    refine ⟨rfl, ?_⟩
    have h0 : (cp'.query name).1 = (((cp'.query name).2.length : Int)) := rfl
    rw [h0]
    omega
  refine ⟨hfetch cp, hquery cp, ?_, ?_⟩
  · cases hl : lookupClone s.dat clone_id with
    | some cp' =>
        simpa [CloneCNVProfile.fetch, hl] using hfetch cp'
    | none => simp [CloneCNVProfile.fetch, hl]
  · cases hl : lookupClone s.dat clone_id with
    | some cp' =>
        simpa [CloneCNVProfile.query, hl] using hquery cp'
    | none => simp [CloneCNVProfile.query, hl]

/-- Claim C7 counterexample: a zero-length query does not always return
nothing.  With the single member `chr1:[100,300)`, the degenerate query
`chr1:[200,200)` satisfies `member.start < query_end` and
`query_start < member.end`, so the member is returned. -/
theorem fetch_zero_length_query_nonempty :
    RegionSet.fetch ⟨[⟨"chr1", 100, 300, "R1", 2, 1⟩]⟩ "chr1" 200 200 ≠ [] := by
  decide

/-- Claim C7 (amended): `fetch` returns exactly the members on the query
chromosome whose half-open interval satisfies `member.start < query_end`
and `query_start < member.end`; `CNVProfile.fetch` projects exactly
those hits to `(cn_ale0, cn_ale1, name)` tuples.  A zero-length query
returns nothing only when no member's open interval strictly contains
the query point — as in the spec's example, where regions `[100,200)`
and `[200,300)` yield nothing for `chr1:[200,200)` — and a query on an
absent chromosome (`chr2`) returns empty rather than an error. -/
theorem fetch_overlap_correct (cp : CNVProfile) (chrom : String)
    (qstart qend : Int) (reg : CNVRegCN) :
    (reg ∈ cp.rs.fetch chrom qstart qend ↔
      reg ∈ cp.rs.regions ∧ reg.chrom = chrom ∧
        reg.start < qend ∧ qstart < reg.«end») ∧
    (cp.fetch chrom qstart qend).2
      = (cp.rs.fetch chrom qstart qend).map
          (fun r => (r.cn_ale0, r.cn_ale1, r.name)) ∧
    RegionSet.fetch
        ⟨[⟨"chr1", 100, 200, "R1", 2, 1⟩, ⟨"chr1", 200, 300, "R2", 3, 1⟩]⟩
        "chr1" 200 200 = [] ∧
    RegionSet.fetch
        ⟨[⟨"chr1", 100, 200, "R1", 2, 1⟩, ⟨"chr1", 200, 300, "R2", 3, 1⟩]⟩
        "chr2" 150 250 = [] := by
  refine ⟨?_, rfl, by decide, by decide⟩
  simp [RegionSet.fetch, List.mem_filter, and_assoc]

/-- Claim C3 counterexample: a rejected insertion can change the visible
state.  On an empty store, inserting `start = 0` (invalid) under a
fresh clone ID returns `-1` yet creates the clone's entry, so
`get_clones` changes from `[]` to `["cloneA"]`. -/
theorem rejected_insert_changes_get_clones :
    (CloneCNVProfile.add_cnv CloneCNVProfile.empty
        "chr1" 0 10 "R1" 2 1 "cloneA").1 = -1 ∧
    (CloneCNVProfile.add_cnv CloneCNVProfile.empty
        "chr1" 0 10 "R1" 2 1 "cloneA").2.get_clones = ["cloneA"] ∧
    CloneCNVProfile.empty.get_clones = [] := by
  decide

/-- The second component of a rejected `CNVProfile.add_cnv` is the
original profile. -/
theorem CNVProfile.add_cnv_snd_of_ne_zero (cp : CNVProfile) (chrom : String)
    (start «end» : Int) (name : String) (cn_ale0 cn_ale1 : Int)
    (h : (cp.add_cnv chrom start «end» name cn_ale0 cn_ale1).1 ≠ 0) :
    (cp.add_cnv chrom start «end» name cn_ale0 cn_ale1).2 = cp := by
  have h' : (cp.rs.add ⟨chrom, start, «end», name, cn_ale0, cn_ale1⟩).1 ≠ 0 := h
  have h2 := RegionSet.add_snd_of_ne_zero _ _ h'
  show (⟨(cp.rs.add ⟨chrom, start, «end», name, cn_ale0, cn_ale1⟩).2⟩ : CNVProfile) = cp
  rw [h2]

/-- Claim C3 (amended): on a rejected insertion (code `-1` or `1`) no region
is added and every clone's region contents — hence every fetch, query
and export result over those contents — are unchanged; however, when
`clone_id` was not yet present an empty profile is lazily created for
it, so `get_clones` may additionally list `clone_id` afterwards. -/
theorem add_cnv_rejected_preserves_regions (s : CloneCNVProfile)
    (chrom : String) (start «end» : Int) (name : String)
    (cn_ale0 cn_ale1 : Int) (clone_id c : String)
    (h : (s.add_cnv chrom start «end» name cn_ale0 cn_ale1 clone_id).1 = -1 ∨
      (s.add_cnv chrom start «end» name cn_ale0 cn_ale1 clone_id).1 = 1) :
    cloneRegions (s.add_cnv chrom start «end» name cn_ale0 cn_ale1 clone_id).2 c
      = cloneRegions s c := by
  have hne : (s.add_cnv chrom start «end» name cn_ale0 cn_ale1 clone_id).1 ≠ 0 := by
    rcases h with h | h <;> rw [h] <;> decide
  by_cases hc : c = clone_id
  · subst hc
    cases hl : lookupClone s.dat c with
    | some cp0 =>
        have h1 : (s.add_cnv chrom start «end» name cn_ale0 cn_ale1 c).2
            = ⟨updateClone s.dat c
                (cp0.add_cnv chrom start «end» name cn_ale0 cn_ale1).2⟩ := by
          simp [CloneCNVProfile.add_cnv, hl]
        have hne' : (cp0.add_cnv chrom start «end» name cn_ale0 cn_ale1).1 ≠ 0 := by
          intro h0
          apply hne
          simp [CloneCNVProfile.add_cnv, hl, h0]
        rw [h1, CNVProfile.add_cnv_snd_of_ne_zero _ _ _ _ _ _ _ hne']
        simp [cloneRegions, lookup_updateClone_self, hl]
    | none =>
        have h1 : (s.add_cnv chrom start «end» name cn_ale0 cn_ale1 c).2
            = ⟨updateClone s.dat c
                (CNVProfile.empty.add_cnv chrom start «end» name cn_ale0 cn_ale1).2⟩ := by
          simp [CloneCNVProfile.add_cnv, hl]
        have hne' :
            (CNVProfile.empty.add_cnv chrom start «end» name cn_ale0 cn_ale1).1 ≠ 0 := by
          intro h0
          apply hne
          simp [CloneCNVProfile.add_cnv, hl, h0]
        rw [h1, CNVProfile.add_cnv_snd_of_ne_zero _ _ _ _ _ _ _ hne']
        simp [cloneRegions, lookup_updateClone_self, hl, CNVProfile.empty]
  · have h1 : (s.add_cnv chrom start «end» name cn_ale0 cn_ale1 clone_id).2.dat
        = updateClone s.dat clone_id
            ((match lookupClone s.dat clone_id with
              | some cp => cp
              | none => CNVProfile.empty).add_cnv
                chrom start «end» name cn_ale0 cn_ale1).2 := rfl
    simp [cloneRegions, h1, lookup_updateClone_ne _ _ _ _ hc]

/-- Claim C3 witness for the amended statement: the rejected insertion of the
counterexample leaves `cloneA`'s region contents (empty) unchanged. -/
theorem add_cnv_rejected_preserves_regions_witness :
    ((CloneCNVProfile.add_cnv CloneCNVProfile.empty
        "chr1" 0 10 "R1" 2 1 "cloneA").1 = -1 ∨
      (CloneCNVProfile.add_cnv CloneCNVProfile.empty
        "chr1" 0 10 "R1" 2 1 "cloneA").1 = 1) ∧
    cloneRegions (CloneCNVProfile.add_cnv CloneCNVProfile.empty
        "chr1" 0 10 "R1" 2 1 "cloneA").2 "cloneA"
      = cloneRegions CloneCNVProfile.empty "cloneA" :=
  ⟨Or.inl (by decide),
    add_cnv_rejected_preserves_regions _ _ _ _ _ _ _ _ _ (Or.inl (by decide))⟩

/-- Claim C8: Clone isolation.  Inserting under clone `A` changes no fetch or
query result scoped to a different clone `B`, whatever the inserted
coordinates and name. -/
theorem clone_isolation (s : CloneCNVProfile) (chrom : String)
    (start «end» : Int) (name : String) (cn_ale0 cn_ale1 : Int)
    (A B : String) (hAB : B ≠ A)
    (qchrom : String) (qstart qend : Int) (qname : String) :
    (s.add_cnv chrom start «end» name cn_ale0 cn_ale1 A).2.fetch
        qchrom qstart qend B = s.fetch qchrom qstart qend B ∧
    (s.add_cnv chrom start «end» name cn_ale0 cn_ale1 A).2.query qname B
      = s.query qname B := by
  have hl : lookupClone
      (s.add_cnv chrom start «end» name cn_ale0 cn_ale1 A).2.dat B
        = lookupClone s.dat B :=
    lookup_updateClone_ne _ _ _ _ hAB
  constructor
  · simp [CloneCNVProfile.fetch, hl]
  · simp [CloneCNVProfile.query, hl]

/-- Claim C8 witness: after inserting `chr1:[100,201) R1` under clone `A` over
a store holding the identical region under clone `B`, clone `B`'s fetch
and query results are unchanged. -/
theorem clone_isolation_witness :
    ("cloneB" : String) ≠ "cloneA" ∧
    ((CloneCNVProfile.add_cnv (CloneCNVProfile.add_cnv CloneCNVProfile.empty
          "chr1" 100 201 "R1" 2 1 "cloneB").2
        "chr1" 100 201 "R1" 2 1 "cloneA").2.fetch "chr1" 100 201 "cloneB"
        = (CloneCNVProfile.add_cnv CloneCNVProfile.empty
            "chr1" 100 201 "R1" 2 1 "cloneB").2.fetch "chr1" 100 201 "cloneB" ∧
      (CloneCNVProfile.add_cnv (CloneCNVProfile.add_cnv CloneCNVProfile.empty
          "chr1" 100 201 "R1" 2 1 "cloneB").2
        "chr1" 100 201 "R1" 2 1 "cloneA").2.query "R1" "cloneB"
        = (CloneCNVProfile.add_cnv CloneCNVProfile.empty
            "chr1" 100 201 "R1" 2 1 "cloneB").2.query "R1" "cloneB") :=
  ⟨by decide, clone_isolation _ _ _ _ _ _ _ _ _ (by decide) _ _ _ _⟩

/-- Claim C1: Round-trip of coordinates through the store.  Ingesting a record
with 1-based inclusive `start` and `end` adds 1 to `end` before
inserting, and bulk export subtracts 1 from the stored exclusive end, so
the exported record reproduces the original inclusive coordinates
exactly and leaves `chrom`, `name`, `clone`, `cn_ale0`, `cn_ale1`
unchanged. -/
theorem load_export_round_trip (r : InputRec) (h1 : 1 ≤ r.start)
    (h2 : r.start ≤ r.«end») :
    (load_cnv_profile [r]).get_all
      = [⟨r.clone, r.chrom, r.start, r.«end», r.region, r.cn_ale0, r.cn_ale1⟩] := by
  have hvalid : 1 ≤ r.start ∧ r.start < r.«end» + 1 := ⟨h1, by omega⟩
  simp [load_cnv_profile, CloneCNVProfile.add_cnv, CloneCNVProfile.empty,
    lookupClone, updateClone, CNVProfile.add_cnv, CNVProfile.empty,
    RegionSet.add, hvalid, CloneCNVProfile.get_all, CNVProfile.get_all,
    RegionSet.get_regions, List.insertionSort, List.orderedInsert]

/-- One `add_cnv` call leaves the key list unchanged when the clone is
known and appends the new clone ID otherwise. -/
theorem add_cnv_map_fst (s : CloneCNVProfile) (chrom : String)
    (start «end» : Int) (name : String) (cn_ale0 cn_ale1 : Int)
    (clone_id : String) :
    (s.add_cnv chrom start «end» name cn_ale0 cn_ale1 clone_id).2.dat.map Prod.fst
      = if clone_id ∈ s.dat.map Prod.fst then s.dat.map Prod.fst
        else s.dat.map Prod.fst ++ [clone_id] :=
  updateClone_map_fst s.dat clone_id _

/-- A clone ID is a key of the store built from a call trace exactly
when some call in the trace used it. -/
theorem mem_keys_applyReqs (reqs : List AddReq) (s : CloneCNVProfile)
    (c : String) :
    c ∈ (applyReqs s reqs).dat.map Prod.fst ↔
      c ∈ s.dat.map Prod.fst ∨ ∃ r ∈ reqs, r.clone_id = c := by
  induction reqs generalizing s with
  | nil => simp [applyReqs]
  | cons r rest ih =>
      rw [applyReqs, ih, add_cnv_map_fst]
      by_cases hmem : r.clone_id ∈ s.dat.map Prod.fst
      · rw [if_pos hmem]
        constructor
        · rintro (hk | ⟨r', hr', hc⟩)
          · exact Or.inl hk
          · exact Or.inr ⟨r', List.mem_cons_of_mem _ hr', hc⟩
        · rintro (hk | ⟨r', hr', hc⟩)
          · exact Or.inl hk
          · rcases List.mem_cons.mp hr' with rfl | hr''
            · exact Or.inl (hc ▸ hmem)
            · exact Or.inr ⟨r', hr'', hc⟩
      · rw [if_neg hmem]
        constructor
        · rintro (hk | ⟨r', hr', hc⟩)
          · rcases List.mem_append.mp hk with hk' | hk''
            · exact Or.inl hk'
            · exact Or.inr ⟨r, List.mem_cons_self _ _,
                (List.mem_singleton.mp hk'').symm⟩
          · exact Or.inr ⟨r', List.mem_cons_of_mem _ hr', hc⟩
        · rintro (hk | ⟨r', hr', hc⟩)
          · exact Or.inl (List.mem_append.mpr (Or.inl hk))
          · rcases List.mem_cons.mp hr' with rfl | hr''
            · exact Or.inl (List.mem_append.mpr
                (Or.inr (List.mem_singleton.mpr hc.symm)))
            · exact Or.inr ⟨r', hr'', hc⟩

/-- A call trace preserves distinctness of the store's keys. -/
theorem nodup_keys_applyReqs (reqs : List AddReq) (s : CloneCNVProfile)
    (h : (s.dat.map Prod.fst).Nodup) :
    ((applyReqs s reqs).dat.map Prod.fst).Nodup := by
  induction reqs generalizing s with
  | nil => exact h
  | cons r rest ih =>
      rw [applyReqs]
      apply ih
      rw [add_cnv_map_fst]
      by_cases hmem : r.clone_id ∈ s.dat.map Prod.fst
      · rwa [if_pos hmem]
      · rw [if_neg hmem]
        refine h.append (List.nodup_singleton _) ?_
        intro a ha ha'
        rw [List.mem_singleton] at ha'
        exact hmem (ha' ▸ ha)

/-- Claim C9: Clone listing.  For every store built by a sequence of
`add_cnv` calls, `get_clones` lists exactly the clone IDs that received
at least one call, strictly ascending (hence each exactly once). -/
theorem get_clones_correct (reqs : List AddReq) (c : String) :
    (c ∈ (applyReqs CloneCNVProfile.empty reqs).get_clones ↔
        ∃ r ∈ reqs, r.clone_id = c) ∧
    (applyReqs CloneCNVProfile.empty reqs).get_clones.Sorted (· < ·) := by
  constructor
  · rw [CloneCNVProfile.get_clones, (List.perm_insertionSort _ _).mem_iff,
      mem_keys_applyReqs]
    simp [CloneCNVProfile.empty]
  · have hnd : ((applyReqs CloneCNVProfile.empty reqs).dat.map Prod.fst).Nodup :=
      nodup_keys_applyReqs reqs _ (by simp [CloneCNVProfile.empty])
    have hsorted :
        ((applyReqs CloneCNVProfile.empty reqs).get_clones).Sorted
          (fun a b : String => a ≤ b) :=
      List.sorted_insertionSort _ _
    have hnd' : ((applyReqs CloneCNVProfile.empty reqs).get_clones).Nodup :=
      ((List.perm_insertionSort _ _).nodup_iff).mpr hnd
    exact hsorted.lt_of_le hnd'

/-- Claim C2: Deterministic bulk-export order.  For every store state (with
the dict's distinct keys), `CloneCNVProfile.get_all` emits records
sorted clone-major with clone IDs ascending and, within each clone, by
`(chrom, start)` ascending with chromosomes compared lexically. -/
theorem get_all_export_sorted (s : CloneCNVProfile)
    (hnd : (s.dat.map Prod.fst).Nodup) :
    (s.get_all).Sorted expLE := by
  show ((List.insertionSort (fun a b : String => a ≤ b)
      (s.dat.map Prod.fst)).flatMap _).Pairwise expLE
  apply List.pairwise_flatMap.mpr
  constructor
  · intro cid hcid
    cases hl : lookupClone s.dat cid with
    | none => simp [hl]
    | some cp =>
        simp only [hl]
        have h0 : (List.insertionSort regLE cp.rs.regions).Pairwise regLE :=
          List.sorted_insertionSort regLE _
        have h1 : ((List.insertionSort regLE cp.rs.regions).map
            (fun reg : CNVRegCN =>
              (⟨cid, reg.chrom, reg.start, reg.«end» - 1, reg.name,
                reg.cn_ale0, reg.cn_ale1⟩ : ExportRec))).Pairwise expLE :=
          h0.map _ (fun a b hab => Or.inr ⟨rfl, hab⟩)
        simpa [CNVProfile.get_all, RegionSet.get_regions, List.map_map,
          Function.comp] using h1
  · have hsorted :
        (List.insertionSort (fun a b : String => a ≤ b)
          (s.dat.map Prod.fst)).Sorted (fun a b : String => a ≤ b) :=
      List.sorted_insertionSort _ _
    have hnd' :
        (List.insertionSort (fun a b : String => a ≤ b)
          (s.dat.map Prod.fst)).Nodup :=
      ((List.perm_insertionSort _ _).nodup_iff).mpr hnd
    have hlt := hsorted.lt_of_le hnd'
    refine hlt.imp ?_
    intro c1 c2 h12 x hx y hy
    have hxc : x.clone = c1 := by
      revert hx
      cases hl : lookupClone s.dat c1 with
      | none => intro hx; simp at hx
      | some cp =>
          intro hx
          simp only [List.mem_map] at hx
          obtain ⟨p, _, rfl⟩ := hx
          rfl
    have hyc : y.clone = c2 := by
      revert hy
      cases hl : lookupClone s.dat c2 with
      | none => intro hy; simp at hy
      | some cp =>
          intro hy
          simp only [List.mem_map] at hy
          obtain ⟨p, _, rfl⟩ := hy
          rfl
    exact Or.inl (by rw [hxc, hyc]; exact h12)

/-- Claim C2 witness: the sample store, with clones and regions inserted
unsorted, exports in sorted order. -/
theorem get_all_export_sorted_witness :
    (sampleStore.dat.map Prod.fst).Nodup ∧ sampleStore.get_all.Sorted expLE :=
  ⟨by decide, get_all_export_sorted _ (by decide)⟩

/-- Claim C1 witness: the spec's record
`chrom=chr1, start=100, end=200, region=R1, cn_ale0=2, cn_ale1=1,
clone=cloneA` round-trips exactly. -/
theorem load_export_round_trip_witness :
    (1 ≤ (100 : Int) ∧ (100 : Int) ≤ 200) ∧
    (load_cnv_profile [⟨"chr1", 100, 200, "R1", 2, 1, "cloneA"⟩]).get_all
      = [⟨"cloneA", "chr1", 100, 200, "R1", 2, 1⟩] :=
  ⟨⟨by decide, by decide⟩,
    load_export_round_trip ⟨"chr1", 100, 200, "R1", 2, 1, "cloneA"⟩
      (by decide) (by decide)⟩

end XCNV
